import Mathlib

/-!
Shallow embedding of the task-manager backend (NestJS + Prisma over MariaDB).

Sources embedded:
  * `src/src/task/task.service.ts`  — TaskService (create, findAllByUser,
    findOne, update, toggleComplete, remove, getStatistics, getUpcomingTasks,
    getOverdueTasks, handlePrismaError)
  * `src/src/auth/auth.service.ts`  — AuthService (register, logIn,
    handlePrismaError)
  * `src/src/auth/auth.controller.ts` — cookie attributes set on
    register / login responses
  * the Prisma migration adding `Task_userId_title_dueDate_key`
    (unique index on `(userId, title, dueDate)` in MariaDB; as for any
    MariaDB unique index, rows with a NULL `dueDate` never collide).

Modelling conventions:
  * JavaScript `Date` values are epoch milliseconds (`Int`); a SQL `NULL`
    date is `Option.none`.
  * A TS value that may be `undefined` is an `Option` (`none` = absent).
    `UpdateTaskDto.dueDate` distinguishes `undefined` / `null` / string,
    so it gets its own three-way type mirroring JS truthiness.
  * The database is a pair of lists; Prisma `findUnique`/`findFirst`
    become `List.find?`, `count` becomes `countP`, unique constraints
    become explicit `any` checks raising the Prisma error code `P2002`.
  * Thrown `HttpException`s become an `Except` error channel; an
    operation that mutates the store returns the store it leaves behind
    (a thrown exception rolls nothing forward, so the store is returned
    unchanged on the error path, matching a failed single-statement
    Prisma call).
  * `bcrypt.hash` / `bcrypt.compare` / `jwtService.signAsync` are opaque
    function parameters.
  * JS number division in `completionRate` is modelled with `ℚ`.
-/

namespace TMB

/-- NestJS `HttpException`s thrown by the two services, carrying their
message strings. -/
inductive HttpError where
  | notFound (msg : String)
  | forbidden (msg : String)
  | conflict (msg : String)
  | badRequest (msg : String)
  | unauthorized (msg : String)
  deriving DecidableEq, Repr

/-- `User` row of the Prisma schema. -/
structure UserRec where
  id : String
  firstName : String
  lastName : String
  email : String
  username : String
  passwordHash : String
  createdAt : Int
  updatedAt : Int
  deriving DecidableEq, Repr

/-- The `select` projection `{id, firstName, lastName, username, email}`
used by every `include: { user: ... }` in TaskService. -/
structure UserSel where
  id : String
  firstName : String
  lastName : String
  username : String
  email : String
  deriving DecidableEq, Repr

def projectUser (u : UserRec) : UserSel :=
  { id := u.id, firstName := u.firstName, lastName := u.lastName,
    username := u.username, email := u.email }

/-- `Task` row of the Prisma schema. `dueDate` is a nullable `DATE`. -/
structure Task where
  id : String
  title : String
  description : Option String
  isDone : Bool
  dueDate : Option Int
  userId : String
  createdAt : Int
  updatedAt : Int
  deriving DecidableEq, Repr

/-- A task joined with the owner projection, as returned by the
`include`-carrying queries. `user` is the looked-up relation
(`none` cannot occur under the schema's foreign key, but the model
does the lookup honestly). -/
structure TaskWithUser where
  task : Task
  user : Option UserSel
  deriving DecidableEq, Repr

/-- The persistent store: the `User` and `Task` tables. -/
structure Db where
  users : List UserRec
  tasks : List Task
  deriving DecidableEq, Repr

def joinUser (db : Db) (t : Task) : TaskWithUser :=
  { task := t, user := (db.users.find? (fun u => u.id = t.userId)).map projectUser }

/-! ### Date parsing

`new Date(s + "T00:00:00.000Z")` for `s = "YYYY-MM-DD"`: the civil date
interpreted at midnight UTC, i.e. (days since 1970-01-01) · 86 400 000 ms.
`daysFromCivil` is the standard proleptic-Gregorian day count. -/

def msPerDay : Int := 86400000

/-- Days from 1970-01-01 to year-month-day (proleptic Gregorian). -/
def daysFromCivil (y m d : Int) : Int :=
  let y' := if m ≤ 2 then y - 1 else y
  let era := (if 0 ≤ y' then y' else y' - 399) / 400
  let yoe := y' - era * 400
  let mp := (m + 9) % 12
  let doy := (153 * mp + 2) / 5 + d - 1
  let doe := yoe * 365 + yoe / 4 - yoe / 100 + doy
  era * 146097 + doe - 719468

def digitsToInt (cs : List Char) : Int :=
  cs.foldl (fun acc c => acc * 10 + (c.toNat - '0'.toNat : Int)) 0

/-- Epoch milliseconds of `new Date(s + "T00:00:00.000Z")` for a
`YYYY-MM-DD` string `s` (the only shape the DTO validation lets through). -/
def parseDueDate (s : String) : Int :=
  let y := digitsToInt (s.data.take 4)
  let m := digitsToInt ((s.data.drop 5).take 2)
  let d := digitsToInt (s.data.drop 8)
  daysFromCivil y m d * msPerDay

/-! ### TaskService.findOne (task.service.ts lines 114–151)

`findUnique({where:{id}})`, `NotFound` when absent, then the ownership
guard `if (userId && task.userId !== userId) throw Forbidden`.  The JS
truthiness test means an `undefined` **or empty-string** caller id skips
the ownership check. -/

def findOne (db : Db) (id : String) (userId : Option String) :
    Except HttpError TaskWithUser :=
  match db.tasks.find? (fun t => t.id = id) with
  | none => .error (.notFound ("Task with ID " ++ id ++ " not found"))
  | some t =>
    match userId with
    | some u =>
      if u ≠ "" ∧ t.userId ≠ u then
        .error (.forbidden "You do not have access to this task")
      else
        .ok (joinUser db t)
    | none => .ok (joinUser db t)

/-! ### Prisma layer

Known request errors the embedded code matches on.  Only `P2002` can
actually arise in this pure model (constraint checks below); the other
constructors keep `handlePrismaError` total as in the source. -/

inductive PrismaErr where
  | P2002 (target : List String)
  | P2025
  | P2003 (fieldName : Option String)
  | P2014
  deriving DecidableEq, Repr

/-- `pat` occurs as a contiguous substring of `hay` (JS `String.includes`). -/
def strContains (hay pat : String) : Bool :=
  decide (pat.data <:+: hay.data)

/-- TaskService.handlePrismaError (task.service.ts lines 357–393),
restricted to the known-request-error codes; the remaining source
branches (validation error, HttpException rethrow, unknown error) cannot
arise in this model. -/
def taskHandlePrismaError (e : PrismaErr) (operation : String) : HttpError :=
  match e with
  | .P2002 _ =>
      .conflict "A task with this title and due date already exists for this user"
  | .P2025 => .notFound "Task not found"
  | .P2003 fieldName =>
      if strContains (fieldName.getD "") "userId" then
        .badRequest "Invalid user reference"
      else
        .badRequest "Cannot perform operation due to related records"
  | .P2014 =>
      .badRequest "The change you are trying to make would violate a required relation"

/-- The MariaDB unique index `Task_userId_title_dueDate_key`:  an insert
(or an update of another row to) `(userId, title, dueDate)` collides with
an existing row only when the tuples agree and `dueDate` is non-NULL
(SQL unique indexes admit any number of NULLs). -/
def taskUniqueViolation (tasks : List Task) (excludeId : Option String)
    (userId title : String) (dueDate : Option Int) : Bool :=
  tasks.any (fun t =>
    (match excludeId with | some i => t.id != i | none => true)
    && t.userId == userId && t.title == title
    && dueDate.isSome && t.dueDate == dueDate)

/-- Column values handed to `prisma.task.create`. -/
structure TaskCreateData where
  title : String
  description : Option String
  isDone : Bool
  dueDate : Option Int
  userId : String

def prismaTaskCreate (db : Db) (data : TaskCreateData) (newId : String)
    (now : Int) : Except PrismaErr (Task × Db) :=
  if taskUniqueViolation db.tasks none data.userId data.title data.dueDate then
    .error (.P2002 ["userId", "title", "dueDate"])
  else
    let t : Task :=
      { id := newId, title := data.title, description := data.description,
        isDone := data.isDone, dueDate := data.dueDate, userId := data.userId,
        createdAt := now, updatedAt := now }
    .ok (t, { db with tasks := db.tasks ++ [t] })

/-- Column values handed to `prisma.task.update`; a `none` field was
`undefined` in the `data` object and leaves the column unchanged.  For
`dueDate` the *inner* option is the SQL NULL. -/
structure TaskUpdateData where
  title : Option String
  description : Option String
  isDone : Option Bool
  dueDate : Option (Option Int)

def prismaTaskUpdate (db : Db) (id : String) (data : TaskUpdateData)
    (now : Int) : Except PrismaErr (Task × Db) :=
  match db.tasks.find? (fun t => t.id = id) with
  | none => .error .P2025
  | some t =>
    let t' : Task :=
      { t with
        title := data.title.getD t.title,
        description := match data.description with
                       | some s => some s
                       | none => t.description,
        isDone := data.isDone.getD t.isDone,
        dueDate := data.dueDate.getD t.dueDate,
        updatedAt := now }
    if taskUniqueViolation db.tasks (some id) t'.userId t'.title t'.dueDate then
      .error (.P2002 ["userId", "title", "dueDate"])
    else
      .ok (t', { db with tasks := db.tasks.map (fun x => if x.id = id then t' else x) })

def prismaTaskDelete (db : Db) (id : String) : Except PrismaErr (Task × Db) :=
  match db.tasks.find? (fun t => t.id = id) with
  | none => .error .P2025
  | some t => .ok (t, { db with tasks := db.tasks.filter (fun x => x.id != id) })

/-! ### TaskService.create (task.service.ts lines 20–51) -/

structure CreateTaskDto where
  title : String
  description : Option String
  isDone : Option Bool
  dueDate : Option String

/-- `createTaskDto.dueDate ? new Date(dueDate + "T00:00:00.000Z") : null` —
JS truthiness sends both an absent and an empty-string `dueDate` to null. -/
def createDueDate (dueDate : Option String) : Option Int :=
  match dueDate with
  | some s => if s = "" then none else some (parseDueDate s)
  | none => none

def create (db : Db) (userId : String) (dto : CreateTaskDto)
    (newId : String) (now : Int) : Except HttpError TaskWithUser × Db :=
  match prismaTaskCreate db
      { title := dto.title, description := dto.description,
        isDone := dto.isDone.getD false,
        dueDate := createDueDate dto.dueDate, userId := userId } newId now with
  | .ok (t, db') => (.ok (joinUser db' t), db')
  | .error e => (.error (taskHandlePrismaError e "create task"), db)

/-! ### TaskService.update / toggleComplete / remove
(task.service.ts lines 156–257): each re-resolves through `findOne`
and re-throws its `NotFound`/`Forbidden` unchanged (the explicit
`instanceof` rethrow in every catch block). -/

/-- `UpdateTaskDto.dueDate`: `undefined` (field omitted), `null`, or a
string — the source distinguishes `!== undefined` first and JS
truthiness second, so all three need to be kept apart. -/
inductive UDate where
  | undef
  | nullv
  | str (s : String)
  deriving DecidableEq, Repr

structure UpdateTaskDto where
  title : Option String
  description : Option String
  isDone : Option Bool
  dueDate : UDate

/-- The `let dueDate` block of `update`: keep the current value when the
DTO field is `undefined` (`!== undefined` guard), otherwise truthiness —
null and the empty string clear to SQL NULL, a non-empty string is
parsed as `new Date(s + "T00:00:00.000Z")`. -/
def updateDueDateValue (dto : UpdateTaskDto) (current : Option Int) : Option Int :=
  match dto.dueDate with
  | .undef => current
  | .nullv => none
  | .str s => if s = "" then none else some (parseDueDate s)

def update (db : Db) (id : String) (userId : String) (dto : UpdateTaskDto)
    (now : Int) : Except HttpError TaskWithUser × Db :=
  match findOne db id (some userId) with
  | .error e => (.error e, db)
  | .ok tw =>
    let dueDate : Option Int := updateDueDateValue dto tw.task.dueDate
    match prismaTaskUpdate db id
        { title := dto.title, description := dto.description,
          isDone := dto.isDone, dueDate := some dueDate } now with
    | .ok (t', db') => (.ok (joinUser db' t'), db')
    | .error e => (.error (taskHandlePrismaError e "update task"), db)

def toggleComplete (db : Db) (id : String) (userId : String) (now : Int) :
    Except HttpError TaskWithUser × Db :=
  match findOne db id (some userId) with
  | .error e => (.error e, db)
  | .ok tw =>
    match prismaTaskUpdate db id
        { title := none, description := none,
          isDone := some (!tw.task.isDone), dueDate := none } now with
    | .ok (t', db') => (.ok (joinUser db' t'), db')
    | .error e => (.error (taskHandlePrismaError e "toggle task completion"), db)

def remove (db : Db) (id : String) (userId : String) :
    Except HttpError Task × Db :=
  match findOne db id (some userId) with
  | .error e => (.error e, db)
  | .ok _ =>
    match prismaTaskDelete db id with
    | .ok (t, db') => (.ok t, db')
    | .error e => (.error (taskHandlePrismaError e "delete task"), db)

/-! ### TaskService.findAllByUser (task.service.ts lines 56–109)

The Prisma `orderBy: [{isDone: 'asc'}, {dueDate: 'asc'}, {createdAt: 'desc'}]`
is a lexicographic sort: `false < true` for `isDone`, SQL NULLs first for
the ascending `dueDate`, larger `createdAt` first.  We realise it as a
sort by a lexicographic key. -/

/-- Ascending `dueDate` with NULLs first (MariaDB `ASC` null ordering). -/
def dueKey (d : Option Int) : Lex (Nat × Int) :=
  toLex (match d with | none => (0, 0) | some x => (1, x))

def taskKey (t : Task) : Lex (Nat × Lex (Lex (Nat × Int) × Int)) :=
  toLex ((if t.isDone then 1 else 0), toLex (dueKey t.dueDate, -t.createdAt))

def taskLE (t u : Task) : Prop := taskKey t ≤ taskKey u

instance : DecidableRel taskLE :=
  fun t u => inferInstanceAs (Decidable (taskKey t ≤ taskKey u))

instance : IsTotal Task taskLE := ⟨fun t u => le_total (taskKey t) (taskKey u)⟩

instance : IsTrans Task taskLE := ⟨fun _ _ _ h h' => le_trans h h'⟩

structure TaskFilters where
  isDone : Option Bool
  dueDateFrom : Option Int
  dueDateTo : Option Int
  search : Option String

/-- The `where` object assembled by `findAllByUser`:
`userId` always; `isDone` when the filter is not `undefined` (`!== undefined`
in the source, so `false` still counts); a `dueDate` range when at least one
bound is present (`Date` objects are always truthy; a SQL comparison with a
NULL `dueDate` never matches); `title contains OR description contains`
when `search` is a non-empty string (an empty string is falsy and skipped;
`contains` against a NULL description never matches). -/
def whereMatches (userId : String) (f : TaskFilters) (t : Task) : Bool :=
  t.userId == userId
  && (match f.isDone with
      | some b => t.isDone == b
      | none => true)
  && (match f.dueDateFrom, f.dueDateTo with
      | none, none => true
      | lo?, hi? =>
        match t.dueDate with
        | some d =>
          (match lo? with | some lo => decide (lo ≤ d) | none => true)
          && (match hi? with | some hi => decide (d ≤ hi) | none => true)
        | none => false)
  && (match f.search with
      | some s =>
        if s = "" then true
        else strContains t.title s
          || (match t.description with
              | some d => strContains d s
              | none => false)
      | none => true)

def findAllByUser (db : Db) (userId : String) (f : TaskFilters) :
    List TaskWithUser :=
  (((db.tasks.filter (whereMatches userId f)).insertionSort taskLE).map
    (joinUser db))

/-! ### TaskService.getStatistics (task.service.ts lines 262–287) -/

structure Stats where
  total : Nat
  completed : Nat
  pending : Nat
  overdue : Nat
  completionRate : ℚ
  deriving DecidableEq, Repr

/-- `dueDate < now` as SQL evaluates it: false on NULL. -/
def dueBefore (d : Option Int) (now : Int) : Bool :=
  match d with
  | some x => decide (x < now)
  | none => false

def getStatistics (db : Db) (userId : String) (now : Int) : Stats :=
  let total := db.tasks.countP (fun t => t.userId == userId)
  let completed := db.tasks.countP (fun t => t.userId == userId && t.isDone)
  let pending := db.tasks.countP (fun t => t.userId == userId && !t.isDone)
  let overdue := db.tasks.countP
    (fun t => t.userId == userId && !t.isDone && dueBefore t.dueDate now)
  { total := total, completed := completed, pending := pending,
    overdue := overdue,
    completionRate := if total > 0 then ((completed : ℚ) / (total : ℚ)) * 100 else 0 }

/-! ### TaskService.getUpcomingTasks (task.service.ts lines 292–323)

`futureDate.setDate(today.getDate() + days)` adds `days` civil days to
`today`; with time modelled as UTC epoch milliseconds that is
`today + days * msPerDay`.  `orderBy: { dueDate: 'asc' }` only. -/

def dueLE (t u : Task) : Prop := dueKey t.dueDate ≤ dueKey u.dueDate

instance : DecidableRel dueLE :=
  fun t u => inferInstanceAs (Decidable (dueKey t.dueDate ≤ dueKey u.dueDate))

instance : IsTotal Task dueLE := ⟨fun t u => le_total (dueKey t.dueDate) (dueKey u.dueDate)⟩

instance : IsTrans Task dueLE := ⟨fun _ _ _ h h' => le_trans h h'⟩

/-- The `where` object of `getUpcomingTasks`: owner, incomplete, and
`dueDate` in `[today, futureDate]` (a NULL `dueDate` fails both bounds). -/
def upcomingMatches (userId : String) (today future : Int) (t : Task) : Bool :=
  t.userId == userId && !t.isDone
  && (match t.dueDate with
      | some d => decide (today ≤ d) && decide (d ≤ future)
      | none => false)

def getUpcomingTasks (db : Db) (userId : String) (today : Int) (days : Int) :
    List TaskWithUser :=
  let future := today + days * msPerDay
  (((db.tasks.filter (upcomingMatches userId today future)).insertionSort dueLE).map
    (joinUser db))

/-! ### TaskService.getOverdueTasks (task.service.ts lines 328–352) -/

def getOverdueTasks (db : Db) (userId : String) (now : Int) :
    List TaskWithUser :=
  (((db.tasks.filter
      (fun t => t.userId == userId && !t.isDone && dueBefore t.dueDate now)).insertionSort
    dueLE).map (joinUser db))

/-! ### AuthService (auth.service.ts) -/

/-- A user record with the password digest stripped, as returned to
callers (`const { passwordHash, ...userWithoutPassword } = user`). -/
structure UserNoHash where
  id : String
  firstName : String
  lastName : String
  email : String
  username : String
  createdAt : Int
  updatedAt : Int
  deriving DecidableEq, Repr

def stripHash (u : UserRec) : UserNoHash :=
  { id := u.id, firstName := u.firstName, lastName := u.lastName,
    email := u.email, username := u.username,
    createdAt := u.createdAt, updatedAt := u.updatedAt }

/-- `{ access_token, user }` as returned by register / logIn. -/
structure AuthResult where
  access_token : String
  user : UserNoHash
  deriving DecidableEq, Repr

structure CreateUserDto where
  firstName : String
  lastName : String
  email : String
  username : String
  password : String

structure LoginDto where
  email : String
  password : String

/-- AuthService.handlePrismaError (auth.service.ts lines 132–181),
restricted to known-request-error codes; the default branch appends the
driver message, which this model does not carry. -/
def authHandlePrismaError (e : PrismaErr) (operation : String) : HttpError :=
  match e with
  | .P2002 target =>
      if target.contains "email" then .conflict "Email already exists"
      else if target.contains "username" then .conflict "Username already exists"
      else .conflict "A user with this information already exists"
  | .P2025 => .unauthorized "Invalid credentials"
  | .P2003 _ => .badRequest "Cannot perform operation due to related records"
  | .P2014 => .badRequest ("Failed to " ++ operation)

/-- The unique constraints on `User.email` and `User.username`. -/
def prismaUserCreate (db : Db) (firstName lastName email username passwordHash : String)
    (newId : String) (now : Int) : Except PrismaErr (UserRec × Db) :=
  if db.users.any (fun u => u.email == email) then
    .error (.P2002 ["email"])
  else if db.users.any (fun u => u.username == username) then
    .error (.P2002 ["username"])
  else
    let u : UserRec :=
      { id := newId, firstName := firstName, lastName := lastName,
        email := email, username := username, passwordHash := passwordHash,
        createdAt := now, updatedAt := now }
    .ok (u, { db with users := db.users ++ [u] })

/-- The hash-and-insert tail of `register` (everything after the
existing-user checks). `hash` is `bcrypt.hash(·, 10)`, `sign` is
`jwtService.signAsync({sub, username})`. -/
def registerInsert (db : Db) (dto : CreateUserDto) (hash : String → String)
    (sign : String → String → String) (newId : String) (now : Int) :
    Except HttpError AuthResult × Db :=
  match prismaUserCreate db dto.firstName dto.lastName dto.email dto.username
      (hash dto.password) newId now with
  | .ok (user, db') =>
      (.ok { access_token := sign user.id user.username, user := stripHash user }, db')
  | .error e => (.error (authHandlePrismaError e "register user"), db)

/-- AuthService.register (auth.service.ts lines 21–68): `findFirst` over
`email OR username`; if a record comes back, an email match on **that
record** wins, else a username match on it; otherwise control falls
through to the insert (unreachable, kept for fidelity). -/
def register (db : Db) (dto : CreateUserDto) (hash : String → String)
    (sign : String → String → String) (newId : String) (now : Int) :
    Except HttpError AuthResult × Db :=
  match db.users.find? (fun u => u.email == dto.email || u.username == dto.username) with
  | some existingUser =>
      if existingUser.email = dto.email then
        (.error (.conflict "Email already exists"), db)
      else if existingUser.username = dto.username then
        (.error (.conflict "Username already exists"), db)
      else
        registerInsert db dto hash sign newId now
  | none => registerInsert db dto hash sign newId now

/-- AuthService.logIn (auth.service.ts lines 70–107). `compare` is
`bcrypt.compare(plain, digest)`. -/
def logIn (db : Db) (dto : LoginDto) (compare : String → String → Bool)
    (sign : String → String → String) : Except HttpError AuthResult :=
  match db.users.find? (fun u => u.email == dto.email) with
  | none => .error (.unauthorized "Invalid credentials")
  | some user =>
    if compare dto.password user.passwordHash then
      .ok { access_token := sign user.id user.username, user := stripHash user }
    else
      .error (.unauthorized "Invalid credentials")

/-! ### AuthController cookies (auth.controller.ts lines 47–93)

The exact option objects passed to `res.cookie('access_token', …)` by the
register and login handlers.  `isProduction` is
`process.env.NODE_ENV === 'production'`. -/

inductive SameSite where
  | strict
  | lax
  | noneSite
  deriving DecidableEq, Repr

structure CookieOptions where
  httpOnly : Bool
  secure : Bool
  sameSite : SameSite
  maxAgeMs : Int
  path : Option String
  deriving DecidableEq, Repr

def registerCookieOptions (isProduction : Bool) : CookieOptions :=
  { httpOnly := true, secure := isProduction, sameSite := .strict,
    maxAgeMs := 24 * 60 * 60 * 1000, path := none }

def loginCookieOptions (isProduction : Bool) : CookieOptions :=
  { httpOnly := true, secure := isProduction, sameSite := .noneSite,
    maxAgeMs := 24 * 60 * 60 * 1000, path := some "/" }

/-! ## Order facts used to read the sort keys back as spec-level
properties -/

/-- "Ascending by due date" over nullable dates, with NULLs first (the
store's `ASC` null-ordering): `none` precedes everything, and two
present dates are ordered by `≤`. -/
def dueOptLe (a b : Option Int) : Prop :=
  match a, b with
  | none, _ => True
  | some _, none => False
  | some x, some y => x ≤ y

theorem dueKey_le_spec {a b : Option Int} (h : dueKey a ≤ dueKey b) :
    dueOptLe a b := by
  cases a with
  | none => cases b <;> exact trivial
  | some x =>
    cases b with
    | none =>
      rw [dueKey, dueKey, Prod.Lex.le_iff] at h
      simp at h
    | some y =>
      rw [dueKey, dueKey, Prod.Lex.le_iff] at h
      simpa [dueOptLe] using h

theorem taskLE_spec {t u : Task} (h : taskLE t u) :
    (t.isDone = true → u.isDone = true)
    ∧ (t.isDone = u.isDone → dueOptLe t.dueDate u.dueDate)
    ∧ (t.isDone = u.isDone → t.dueDate = u.dueDate
        → u.createdAt ≤ t.createdAt) := by
  rw [taskLE, taskKey, taskKey, Prod.Lex.le_iff] at h
  refine ⟨?_, ?_, ?_⟩
  · intro ht
    rcases h with hlt | ⟨heq, _⟩
    · rw [ht] at hlt
      cases hu : u.isDone
      · rw [hu] at hlt; simp at hlt
      · rfl
    · rw [ht] at heq
      cases hu : u.isDone
      · rw [hu] at heq; simp at heq
      · rfl
  · intro hdone
    rcases h with hlt | ⟨_, hb⟩
    · rw [hdone] at hlt
      exact absurd hlt (lt_irrefl _)
    · rw [Prod.Lex.le_iff] at hb
      rcases hb with hk | ⟨hk, _⟩
      · exact dueKey_le_spec (le_of_lt hk)
      · exact dueKey_le_spec (le_of_eq hk)
  · intro hdone hdue
    rcases h with hlt | ⟨_, hb⟩
    · rw [hdone] at hlt
      exact absurd hlt (lt_irrefl _)
    · rw [Prod.Lex.le_iff] at hb
      rcases hb with hk | ⟨_, hcr⟩
      · rw [hdue] at hk
        exact absurd hk (lt_irrefl _)
      · dsimp at hcr
        omega

theorem upcomingMatches_iff (userId : String) (today future : Int)
    (t : Task) :
    upcomingMatches userId today future t = true ↔
      t.userId = userId ∧ t.isDone = false
      ∧ ∃ d, t.dueDate = some d ∧ today ≤ d ∧ d ≤ future := by
  unfold upcomingMatches
  cases hd : t.dueDate <;> simp [hd, and_assoc]

/-! ## Shared concrete fixtures used by witnesses and counterexamples -/

def aliceTask : Task :=
  { id := "t1", title := "Buy milk", description := none, isDone := false,
    dueDate := some 1771545600000, userId := "alice", createdAt := 10,
    updatedAt := 10 }

def fixtureDb : Db := { users := [], tasks := [aliceTask] }

/-- Holds the username the registration input collides with. -/
def bobUser : UserRec :=
  { id := "u1", firstName := "Bob", lastName := "Builder",
    email := "bob@example.com", username := "bob",
    passwordHash := "h1", createdAt := 0, updatedAt := 0 }

/-- Holds the email the registration input collides with. -/
def aliceUser : UserRec :=
  { id := "u2", firstName := "Alice", lastName := "Alpha",
    email := "alice@example.com", username := "alice",
    passwordHash := "h2", createdAt := 0, updatedAt := 0 }

/-- `bobUser` precedes `aliceUser`, so `findFirst(email OR username)`
returns the username-matching record. -/
def collideDb : Db := { users := [bobUser, aliceUser], tasks := [] }

/-- Registration input whose email collides with `aliceUser` and whose
username collides with `bobUser`. -/
def collideDto : CreateUserDto :=
  { firstName := "Carol", lastName := "Clash",
    email := "alice@example.com", username := "bob", password := "Pass1!xx" }

end TMB

/-- C1: for every stored task `t` and every non-empty caller id `c` that
differs from `t`'s owner, `findOne`, `update`, `toggleComplete` and
`remove` all fail with the exact `Forbidden` error raised by the shared
`findOne` lookup ("You do not have access to this task"), the store is
left unchanged, and no task data is returned. -/
theorem C1_nonowner_forbidden (db : TMB.Db) (id : String) (t : TMB.Task)
    (c : String) (dto : TMB.UpdateTaskDto) (now : Int)
    (hfind : db.tasks.find? (fun x => x.id = id) = some t)
    (hc : c ≠ "") (hown : t.userId ≠ c) :
    TMB.findOne db id (some c)
        = .error (.forbidden "You do not have access to this task")
    ∧ TMB.update db id c dto now
        = (.error (.forbidden "You do not have access to this task"), db)
    ∧ TMB.toggleComplete db id c now
        = (.error (.forbidden "You do not have access to this task"), db)
    ∧ TMB.remove db id c
        = (.error (.forbidden "You do not have access to this task"), db) := by
  have hfo : TMB.findOne db id (some c)
      = .error (.forbidden "You do not have access to this task") := by
    unfold TMB.findOne
    rw [hfind]
    simp [hc, hown]
  refine ⟨hfo, ?_, ?_, ?_⟩
  · unfold TMB.update; rw [hfo]
  · unfold TMB.toggleComplete; rw [hfo]
  · unfold TMB.remove; rw [hfo]

/-- Closed witness for C1 at a concrete store and caller. -/
theorem C1_nonowner_forbidden_witness :
    TMB.findOne TMB.fixtureDb "t1" (some "bob")
        = .error (.forbidden "You do not have access to this task")
    ∧ TMB.update TMB.fixtureDb "t1" "bob"
        { title := none, description := none, isDone := none, dueDate := .undef } 0
        = (.error (.forbidden "You do not have access to this task"), TMB.fixtureDb)
    ∧ TMB.toggleComplete TMB.fixtureDb "t1" "bob" 0
        = (.error (.forbidden "You do not have access to this task"), TMB.fixtureDb)
    ∧ TMB.remove TMB.fixtureDb "t1" "bob"
        = (.error (.forbidden "You do not have access to this task"), TMB.fixtureDb) :=
  C1_nonowner_forbidden TMB.fixtureDb "t1" TMB.aliceTask "bob"
    { title := none, description := none, isDone := none, dueDate := .undef } 0
    (by decide) (by decide) (by decide)

/-- C2: when the store already holds a task with the same owner, title
and (non-null) due date, a second `create` fails with `Conflict`
("A task with this title and due date already exists for this user")
and leaves the task table unchanged. -/
theorem C2_duplicate_create_conflict (db : TMB.Db) (uid : String)
    (dto : TMB.CreateTaskDto) (newId : String) (now : Int) (t : TMB.Task)
    (s : String)
    (ht : t ∈ db.tasks) (hown : t.userId = uid) (htitle : t.title = dto.title)
    (hs : dto.dueDate = some s) (hne : s ≠ "")
    (hdue : t.dueDate = some (TMB.parseDueDate s)) :
    TMB.create db uid dto newId now
      = (.error (.conflict
          "A task with this title and due date already exists for this user"),
         db) := by
  have hcd : TMB.createDueDate dto.dueDate = some (TMB.parseDueDate s) := by
    unfold TMB.createDueDate
    rw [hs]
    simp [hne]
  have hviol : TMB.taskUniqueViolation db.tasks none uid dto.title
      (some (TMB.parseDueDate s)) = true := by
    unfold TMB.taskUniqueViolation
    refine List.any_eq_true.mpr ⟨t, ht, ?_⟩
    simp [hown, htitle, hdue]
  unfold TMB.create TMB.prismaTaskCreate
  simp only [hcd, hviol]
  rfl

/-- Closed witness for C2 at a concrete store and DTO. -/
theorem C2_duplicate_create_conflict_witness :
    TMB.create TMB.fixtureDb "alice"
        { title := "Buy milk", description := none, isDone := none,
          dueDate := some "2026-02-20" } "t2" 99
      = (.error (.conflict
          "A task with this title and due date already exists for this user"),
         TMB.fixtureDb) :=
  C2_duplicate_create_conflict TMB.fixtureDb "alice"
    { title := "Buy milk", description := none, isDone := none,
      dueDate := some "2026-02-20" } "t2" 99 TMB.aliceTask "2026-02-20"
    (by decide) (by decide) (by decide) (by decide) (by decide) (by decide)

/-- C3: `getStatistics` counts exactly the owner's tasks — `completed`
the done ones, `pending` the not-done ones, `overdue` the not-done ones
due strictly before `now` — with `completed + pending = total`, and
`completionRate` is `0` for `total = 0` and `completed/total·100`
otherwise. -/
theorem C3_statistics (db : TMB.Db) (uid : String) (now : Int) :
    (TMB.getStatistics db uid now).total
        = (db.tasks.filter (fun t => t.userId == uid)).length
    ∧ (TMB.getStatistics db uid now).completed
        = ((db.tasks.filter (fun t => t.userId == uid)).filter
            (fun t => t.isDone)).length
    ∧ (TMB.getStatistics db uid now).pending
        = ((db.tasks.filter (fun t => t.userId == uid)).filter
            (fun t => !t.isDone)).length
    ∧ (TMB.getStatistics db uid now).overdue
        = ((db.tasks.filter (fun t => t.userId == uid)).filter
            (fun t => !t.isDone && TMB.dueBefore t.dueDate now)).length
    ∧ (TMB.getStatistics db uid now).completed
        + (TMB.getStatistics db uid now).pending
        = (TMB.getStatistics db uid now).total
    ∧ ((TMB.getStatistics db uid now).total = 0
        → (TMB.getStatistics db uid now).completionRate = 0)
    ∧ (0 < (TMB.getStatistics db uid now).total
        → (TMB.getStatistics db uid now).completionRate
            = ((TMB.getStatistics db uid now).completed : ℚ)
              / ((TMB.getStatistics db uid now).total : ℚ) * 100) := by
  have hc : ∀ p : TMB.Task → Bool,
      db.tasks.countP (fun t => t.userId == uid && p t)
        = ((db.tasks.filter (fun t => t.userId == uid)).filter p).length := by
    intro p
    rw [← List.countP_eq_length_filter, List.countP_filter]
    exact List.countP_congr (fun t _ => by rw [Bool.and_comm])
  have hover : db.tasks.countP
      (fun t => t.userId == uid && !t.isDone && TMB.dueBefore t.dueDate now)
      = ((db.tasks.filter (fun t => t.userId == uid)).filter
          (fun t => !t.isDone && TMB.dueBefore t.dueDate now)).length := by
    rw [← hc (fun t => !t.isDone && TMB.dueBefore t.dueDate now)]
    exact List.countP_congr (fun t _ => by rw [Bool.and_assoc])
  unfold TMB.getStatistics
  dsimp only
  refine ⟨List.countP_eq_length_filter .., hc _, hc _, hover, ?_, ?_, ?_⟩
  · rw [hc (fun t => t.isDone), hc (fun t => !t.isDone),
      List.countP_eq_length_filter]
    have := List.length_eq_countP_add_countP
      (fun t : TMB.Task => t.isDone) (l := db.tasks.filter (fun t => t.userId == uid))
    rw [List.countP_eq_length_filter, List.countP_eq_length_filter] at this
    simpa using this.symm
  · intro h0
    simp [h0]
  · intro hpos
    simp [hpos]

/-- Closed witness for C3 at a concrete store. -/
theorem C3_statistics_witness :
    (TMB.getStatistics TMB.fixtureDb "alice" 0).total
        = (TMB.fixtureDb.tasks.filter (fun t => t.userId == "alice")).length
    ∧ (TMB.getStatistics TMB.fixtureDb "alice" 0).completed
        = ((TMB.fixtureDb.tasks.filter (fun t => t.userId == "alice")).filter
            (fun t => t.isDone)).length
    ∧ (TMB.getStatistics TMB.fixtureDb "alice" 0).pending
        = ((TMB.fixtureDb.tasks.filter (fun t => t.userId == "alice")).filter
            (fun t => !t.isDone)).length
    ∧ (TMB.getStatistics TMB.fixtureDb "alice" 0).overdue
        = ((TMB.fixtureDb.tasks.filter (fun t => t.userId == "alice")).filter
            (fun t => !t.isDone && TMB.dueBefore t.dueDate 0)).length
    ∧ (TMB.getStatistics TMB.fixtureDb "alice" 0).completed
        + (TMB.getStatistics TMB.fixtureDb "alice" 0).pending
        = (TMB.getStatistics TMB.fixtureDb "alice" 0).total
    ∧ ((TMB.getStatistics TMB.fixtureDb "alice" 0).total = 0
        → (TMB.getStatistics TMB.fixtureDb "alice" 0).completionRate = 0)
    ∧ (0 < (TMB.getStatistics TMB.fixtureDb "alice" 0).total
        → (TMB.getStatistics TMB.fixtureDb "alice" 0).completionRate
            = ((TMB.getStatistics TMB.fixtureDb "alice" 0).completed : ℚ)
              / ((TMB.getStatistics TMB.fixtureDb "alice" 0).total : ℚ) * 100) :=
  C3_statistics TMB.fixtureDb "alice" 0

/-- C4: a login whose email matches no user and a login whose email
matches a user but whose password fails digest verification produce the
same `Unauthorized "Invalid credentials"` error, so the two failing runs
are indistinguishable to the caller — over any two store states and
inputs. -/
theorem C4_login_failures_indistinguishable
    (db₁ db₂ : TMB.Db) (dto₁ dto₂ : TMB.LoginDto)
    (compare : String → String → Bool) (sign : String → String → String)
    (u : TMB.UserRec)
    (h1 : db₁.users.find? (fun v => v.email == dto₁.email) = none)
    (h2 : db₂.users.find? (fun v => v.email == dto₂.email) = some u)
    (h3 : compare dto₂.password u.passwordHash = false) :
    TMB.logIn db₁ dto₁ compare sign
        = .error (.unauthorized "Invalid credentials")
    ∧ TMB.logIn db₂ dto₂ compare sign
        = .error (.unauthorized "Invalid credentials")
    ∧ TMB.logIn db₁ dto₁ compare sign = TMB.logIn db₂ dto₂ compare sign := by
  have e1 : TMB.logIn db₁ dto₁ compare sign
      = .error (.unauthorized "Invalid credentials") := by
    unfold TMB.logIn
    rw [h1]
  have e2 : TMB.logIn db₂ dto₂ compare sign
      = .error (.unauthorized "Invalid credentials") := by
    unfold TMB.logIn
    rw [h2]
    simp [h3]
  exact ⟨e1, e2, e1.trans e2.symm⟩

/-- Closed witness for C4: unknown email vs. known email with a wrong
password against a one-user store. -/
theorem C4_login_failures_indistinguishable_witness :
    TMB.logIn { users := [], tasks := [] } { email := "ghost@example.com", password := "x" }
        (fun p h => p == h) (fun _ _ => "tok")
        = .error (.unauthorized "Invalid credentials")
    ∧ TMB.logIn
        { users := [{ id := "u1", firstName := "A", lastName := "B",
                      email := "a@example.com", username := "a",
                      passwordHash := "secret", createdAt := 0, updatedAt := 0 }],
          tasks := [] }
        { email := "a@example.com", password := "wrong" }
        (fun p h => p == h) (fun _ _ => "tok")
        = .error (.unauthorized "Invalid credentials")
    ∧ TMB.logIn { users := [], tasks := [] } { email := "ghost@example.com", password := "x" }
        (fun p h => p == h) (fun _ _ => "tok")
      = TMB.logIn
          { users := [{ id := "u1", firstName := "A", lastName := "B",
                        email := "a@example.com", username := "a",
                        passwordHash := "secret", createdAt := 0, updatedAt := 0 }],
            tasks := [] }
          { email := "a@example.com", password := "wrong" }
          (fun p h => p == h) (fun _ _ => "tok") :=
  C4_login_failures_indistinguishable
    { users := [], tasks := [] }
    { users := [{ id := "u1", firstName := "A", lastName := "B",
                  email := "a@example.com", username := "a",
                  passwordHash := "secret", createdAt := 0, updatedAt := 0 }],
      tasks := [] }
    { email := "ghost@example.com", password := "x" }
    { email := "a@example.com", password := "wrong" }
    (fun p h => p == h) (fun _ _ => "tok")
    { id := "u1", firstName := "A", lastName := "B",
      email := "a@example.com", username := "a",
      passwordHash := "secret", createdAt := 0, updatedAt := 0 }
    (by decide) (by decide) (by decide)

/-- C5: for every owner and filter combination, `findAllByUser` returns
its list sorted with incomplete tasks before completed ones, then
ascending by due date (NULLs first), then descending by creation time as
the final tie-break. -/
theorem C5_findAllByUser_ordering (db : TMB.Db) (uid : String)
    (f : TMB.TaskFilters) :
    (TMB.findAllByUser db uid f).Pairwise (fun tw uw =>
      (tw.task.isDone = true → uw.task.isDone = true)
      ∧ (tw.task.isDone = uw.task.isDone
          → TMB.dueOptLe tw.task.dueDate uw.task.dueDate)
      ∧ (tw.task.isDone = uw.task.isDone
          → tw.task.dueDate = uw.task.dueDate
          → uw.task.createdAt ≤ tw.task.createdAt)) := by
  unfold TMB.findAllByUser
  rw [List.pairwise_map]
  have hs : ((db.tasks.filter (TMB.whereMatches uid f)).insertionSort
      TMB.taskLE).Sorted TMB.taskLE :=
    List.sorted_insertionSort TMB.taskLE _
  exact hs.imp (fun hab => TMB.taskLE_spec hab)

/-- C6: `getUpcomingTasks` returns exactly the owner's incomplete tasks
whose (non-null) due date lies in the inclusive window
`[today, today + days]`, ascending by due date; completed tasks are
excluded whatever their due date. -/
theorem C6_upcoming_window (db : TMB.Db) (uid : String) (today days : Int) :
    (∀ tw, tw ∈ TMB.getUpcomingTasks db uid today days ↔
        (tw.task ∈ db.tasks ∧ tw = TMB.joinUser db tw.task
         ∧ tw.task.userId = uid ∧ tw.task.isDone = false
         ∧ ∃ d, tw.task.dueDate = some d
             ∧ today ≤ d ∧ d ≤ today + days * TMB.msPerDay))
    ∧ (TMB.getUpcomingTasks db uid today days).Pairwise
        (fun tw uw => TMB.dueOptLe tw.task.dueDate uw.task.dueDate) := by
  constructor
  · intro tw
    unfold TMB.getUpcomingTasks
    dsimp only
    rw [List.mem_map]
    constructor
    · rintro ⟨a, ha, rfl⟩
      rw [List.mem_insertionSort, List.mem_filter] at ha
      obtain ⟨hmem, hmatch⟩ := ha
      rw [TMB.upcomingMatches_iff] at hmatch
      exact ⟨hmem, rfl, hmatch⟩
    · rintro ⟨hmem, htw, hconds⟩
      refine ⟨tw.task, ?_, htw.symm⟩
      rw [List.mem_insertionSort, List.mem_filter]
      exact ⟨hmem, (TMB.upcomingMatches_iff ..).mpr hconds⟩
  · unfold TMB.getUpcomingTasks
    dsimp only
    rw [List.pairwise_map]
    have hs : ((db.tasks.filter
        (TMB.upcomingMatches uid today (today + days * TMB.msPerDay))).insertionSort
        TMB.dueLE).Sorted TMB.dueLE :=
      List.sorted_insertionSort TMB.dueLE _
    exact hs.imp (fun hab => TMB.dueKey_le_spec hab)

/-- C7: for an existing owned task, `update` keeps every field the
partial omits, clears `dueDate` to NULL on an explicit null or empty
string, and parses a non-empty `dueDate` string with the same
midnight-UTC-anchored conversion `create` uses. -/
theorem C7_update_partial_semantics (db : TMB.Db) (id uid : String)
    (dto : TMB.UpdateTaskDto) (now : Int) (t : TMB.Task)
    (hfind : db.tasks.find? (fun x => x.id = id) = some t)
    (hown : t.userId = uid)
    (hnc : TMB.taskUniqueViolation db.tasks (some id) t.userId
        (dto.title.getD t.title) (TMB.updateDueDateValue dto t.dueDate) = false) :
    ∃ u db', TMB.update db id uid dto now = (.ok u, db')
    ∧ (dto.title = none → u.task.title = t.title)
    ∧ (dto.description = none → u.task.description = t.description)
    ∧ (dto.isDone = none → u.task.isDone = t.isDone)
    ∧ (dto.dueDate = .undef → u.task.dueDate = t.dueDate)
    ∧ (dto.dueDate = .nullv → u.task.dueDate = none)
    ∧ (dto.dueDate = .str "" → u.task.dueDate = none)
    ∧ (∀ s, dto.dueDate = .str s → s ≠ ""
        → u.task.dueDate = TMB.createDueDate (some s)
          ∧ TMB.createDueDate (some s) = some (TMB.parseDueDate s)
          ∧ TMB.parseDueDate s % TMB.msPerDay = 0) := by
  have hfo : TMB.findOne db id (some uid) = .ok (TMB.joinUser db t) := by
    unfold TMB.findOne
    rw [hfind]
    simp [hown]
  have hjt : (TMB.joinUser db t).task = t := rfl
  set t' : TMB.Task :=
    { t with
      title := dto.title.getD t.title,
      description := match dto.description with
                     | some s => some s
                     | none => t.description,
      isDone := dto.isDone.getD t.isDone,
      dueDate := TMB.updateDueDateValue dto t.dueDate,
      updatedAt := now } with ht'
  have hup : TMB.update db id uid dto now
      = (.ok (TMB.joinUser
            { db with tasks := db.tasks.map (fun x => if x.id = id then t' else x) } t'),
         { db with tasks := db.tasks.map (fun x => if x.id = id then t' else x) }) := by
    unfold TMB.update
    rw [hfo]
    unfold TMB.prismaTaskUpdate
    rw [hfind]
    dsimp only [Option.getD_some]
    simp only [hjt, hnc]
    rfl
  refine ⟨_, _, hup, ?_, ?_, ?_, ?_, ?_, ?_, ?_⟩
  · intro h0; simp [ht', h0, TMB.joinUser]
  · intro h0; simp [ht', h0, TMB.joinUser]
  · intro h0; simp [ht', h0, TMB.joinUser]
  · intro h0; simp [ht', TMB.joinUser, TMB.updateDueDateValue, h0]
  · intro h0; simp [ht', TMB.joinUser, TMB.updateDueDateValue, h0]
  · intro h0; simp [ht', TMB.joinUser, TMB.updateDueDateValue, h0]
  · intro s hs hne
    refine ⟨?_, ?_, ?_⟩
    · simp [ht', TMB.joinUser, TMB.updateDueDateValue, hs, hne,
        TMB.createDueDate]
    · simp [TMB.createDueDate, hne]
    · unfold TMB.parseDueDate
      exact Int.mul_emod_left ..

/-- Closed witness for C7: a partial that omits `title`, `description`
and `isDone` and re-dates the task to `2026-03-01`. -/
theorem C7_update_partial_semantics_witness :
    ∃ u db', TMB.update TMB.fixtureDb "t1" "alice"
        { title := none, description := none, isDone := none,
          dueDate := .str "2026-03-01" } 77 = (.ok u, db')
    ∧ ((none : Option String) = none → u.task.title = TMB.aliceTask.title)
    ∧ ((none : Option String) = none
        → u.task.description = TMB.aliceTask.description)
    ∧ ((none : Option Bool) = none → u.task.isDone = TMB.aliceTask.isDone)
    ∧ (TMB.UDate.str "2026-03-01" = .undef
        → u.task.dueDate = TMB.aliceTask.dueDate)
    ∧ (TMB.UDate.str "2026-03-01" = .nullv → u.task.dueDate = none)
    ∧ (TMB.UDate.str "2026-03-01" = .str "" → u.task.dueDate = none)
    ∧ (∀ s, TMB.UDate.str "2026-03-01" = .str s → s ≠ ""
        → u.task.dueDate = TMB.createDueDate (some s)
          ∧ TMB.createDueDate (some s) = some (TMB.parseDueDate s)
          ∧ TMB.parseDueDate s % TMB.msPerDay = 0) :=
  C7_update_partial_semantics TMB.fixtureDb "t1" "alice"
    { title := none, description := none, isDone := none,
      dueDate := .str "2026-03-01" } 77 TMB.aliceTask
    (by decide) (by decide) (by decide)

/-- C8 counterexample: a store where the username collision sits on an
earlier record than the email collision.  Both email and username of the
input collide, yet `register` reports `Conflict("Username already
exists")`, not `Conflict(email)` — the email priority only applies
within the single record `findFirst` returns. -/
theorem C8_counterexample_username_wins :
    (∃ u ∈ TMB.collideDb.users, u.email = TMB.collideDto.email)
    ∧ (∃ v ∈ TMB.collideDb.users, v.username = TMB.collideDto.username)
    ∧ TMB.register TMB.collideDb TMB.collideDto (fun p => p) (fun _ _ => "tok")
        "u3" 0
        = (.error (.conflict "Username already exists"), TMB.collideDb)
    ∧ (TMB.HttpError.conflict "Username already exists")
        ≠ (TMB.HttpError.conflict "Email already exists") :=
  ⟨by decide, by decide, rfl, by decide⟩

/-- C8 amended: when both the email and the username of a registration
input collide with existing users, `register` fails with a `Conflict`
(email or username) and inserts nothing; `Conflict(email)` is guaranteed
exactly when the record `findFirst(email OR username)` returns carries
the matching email (in particular whenever both collisions are on the
same record). -/
theorem C8_amended_conflict_on_double_collision (db : TMB.Db)
    (dto : TMB.CreateUserDto) (hash : String → String)
    (sign : String → String → String) (newId : String) (now : Int)
    (he : ∃ u ∈ db.users, u.email = dto.email)
    (hu : ∃ v ∈ db.users, v.username = dto.username) :
    ∃ w msg,
      db.users.find? (fun x => x.email == dto.email || x.username == dto.username)
          = some w
      ∧ TMB.register db dto hash sign newId now = (.error (.conflict msg), db)
      ∧ (msg = "Email already exists" ∨ msg = "Username already exists")
      ∧ (w.email = dto.email → msg = "Email already exists") := by
  obtain ⟨u, humem, hueq⟩ := he
  have hsome : (db.users.find?
      (fun x => x.email == dto.email || x.username == dto.username)).isSome :=
    List.find?_isSome.mpr ⟨u, humem, by simp [hueq]⟩
  obtain ⟨w, hw⟩ := Option.isSome_iff_exists.mp hsome
  have hpw : w.email = dto.email ∨ w.username = dto.username := by
    simpa using List.find?_some hw
  by_cases hwe : w.email = dto.email
  · refine ⟨w, "Email already exists", hw, ?_, Or.inl rfl, fun _ => rfl⟩
    unfold TMB.register
    rw [hw]
    simp [hwe]
  · have hwu : w.username = dto.username := hpw.resolve_left hwe
    refine ⟨w, "Username already exists", hw, ?_, Or.inr rfl,
      fun h => absurd h hwe⟩
    unfold TMB.register
    rw [hw]
    simp [hwe, hwu]

/-- Closed witness for the amended C8 at the two-record store. -/
theorem C8_amended_conflict_on_double_collision_witness :
    (∃ u ∈ TMB.collideDb.users, u.email = TMB.collideDto.email)
    ∧ (∃ v ∈ TMB.collideDb.users, v.username = TMB.collideDto.username)
    ∧ ∃ w msg,
        TMB.collideDb.users.find?
            (fun x => x.email == TMB.collideDto.email
              || x.username == TMB.collideDto.username) = some w
        ∧ TMB.register TMB.collideDb TMB.collideDto (fun p => p)
            (fun _ _ => "tok") "u3" 0 = (.error (.conflict msg), TMB.collideDb)
        ∧ (msg = "Email already exists" ∨ msg = "Username already exists")
        ∧ (w.email = TMB.collideDto.email → msg = "Email already exists") :=
  ⟨by decide, by decide,
    C8_amended_conflict_on_double_collision TMB.collideDb TMB.collideDto
      (fun p => p) (fun _ _ => "tok") "u3" 0 (by decide) (by decide)⟩

/-- C9 counterexample: the login handler sets the session cookie with
`sameSite: 'none'` — not restricted to same-site requests — while the
register handler uses `sameSite: 'strict'` (and no explicit `path`), so
login's cookie attributes are not those of registration. -/
theorem C9_counterexample_login_cookie_not_samesite :
    (TMB.loginCookieOptions false).sameSite = TMB.SameSite.noneSite
    ∧ (TMB.registerCookieOptions false).sameSite = TMB.SameSite.strict
    ∧ TMB.SameSite.noneSite ≠ TMB.SameSite.strict
    ∧ TMB.loginCookieOptions false ≠ TMB.registerCookieOptions false := by
  decide

/-- C9 amended: a successful login sets the session cookie HTTP-only
with a 24-hour lifetime, matching registration on `httpOnly`, `maxAge`
and `secure`; but it uses `SameSite=None` with an explicit `path: '/'`,
whereas registration uses `SameSite=Strict`, so the cookie is not
same-site-restricted and the attribute sets differ. -/
theorem C9_amended_cookie_attributes (isProduction : Bool) :
    (TMB.loginCookieOptions isProduction).httpOnly = true
    ∧ (TMB.loginCookieOptions isProduction).maxAgeMs = 24 * 60 * 60 * 1000
    ∧ (TMB.loginCookieOptions isProduction).sameSite = TMB.SameSite.noneSite
    ∧ (TMB.loginCookieOptions isProduction).path = some "/"
    ∧ (TMB.registerCookieOptions isProduction).sameSite = TMB.SameSite.strict
    ∧ (TMB.registerCookieOptions isProduction).httpOnly
        = (TMB.loginCookieOptions isProduction).httpOnly
    ∧ (TMB.registerCookieOptions isProduction).maxAgeMs
        = (TMB.loginCookieOptions isProduction).maxAgeMs
    ∧ (TMB.registerCookieOptions isProduction).secure
        = (TMB.loginCookieOptions isProduction).secure := by
  cases isProduction <;> decide

/-- C10: `findOne` with an empty-string caller id skips the ownership
guard entirely (JS truthiness) and returns the stored task with its
owner projection, never failing with `Forbidden`, whatever the task's
owner is. -/
theorem C10_empty_caller_skips_ownership (db : TMB.Db) (id : String)
    (t : TMB.Task) (hfind : db.tasks.find? (fun x => x.id = id) = some t) :
    TMB.findOne db id (some "") = .ok (TMB.joinUser db t) := by
  unfold TMB.findOne
  rw [hfind]
  simp

/-- Closed witness for C10: the task is owned by "alice" (a non-empty
id), yet the empty caller id reads it back. -/
theorem C10_empty_caller_skips_ownership_witness :
    TMB.findOne TMB.fixtureDb "t1" (some "")
      = .ok (TMB.joinUser TMB.fixtureDb TMB.aliceTask) :=
  C10_empty_caller_skips_ownership TMB.fixtureDb "t1" TMB.aliceTask (by decide)

